import Mathlib

/-!
# Verification of the dual-mode authentication boundary

This file gives a shallow embedding, in Lean 4, of the authentication core of
the repository: the provider resolver, the route-gating middleware (both the
current variant and the legacy variant), the cookie-backed credential store
routes (`/api/auth/oss`, `/api/auth/session`, `/api/auth/logout`, the register
route), the server-side identity resolver (`getOSSUser`, `getOSSToken`), and
the client-side `LocalAuthService`.

JavaScript-specific behaviour is modelled explicitly:
* cookie jars are association lists of name/value string pairs; a cookie can be
  present with the empty value, and the code's `if (x)`-style checks are
  modelled by truthiness tests (`""`, `null`/`undefined` are falsy);
* `JSON.parse` is modelled by an executable recursive-descent parser
  (`jsonParse`) over a `Json` value type covering the fragment of JSON the
  system exchanges (integer numerals; no `\u` escapes);
* thrown exceptions are modelled with `Except`: code that may throw lives in
  `Except ε α`, `try`/`catch` is a `match` on the result, and a handler from
  which an exception escapes is a function whose result is `Except.error`.
-/

/-- A JSON value (the fragment relevant to the system: numeric literals are
integers, which covers every payload the code exchanges). -/
inductive Json where
  | null : Json
  | bool : Bool → Json
  | num : Int → Json
  | str : String → Json
  | arr : List Json → Json
  | obj : List (String × Json) → Json

/-- JavaScript truthiness of a value that may also be `undefined` (`none`):
`undefined`, `null`, `false`, `0` and `""` are falsy, everything else truthy. -/
def jsTruthy : Option Json → Bool
  | none => false
  | some Json.null => false
  | some (Json.bool b) => b
  | some (Json.num n) => n != 0
  | some (Json.str s) => s != ""
  | some (Json.arr _) => true
  | some (Json.obj _) => true

mutual

/-- JavaScript `String(v)` coercion (arrays join with commas, objects print as
`[object Object]`). -/
def jsToString : Json → String
  | Json.null => "null"
  | Json.bool b => if b then "true" else "false"
  | Json.num n => toString n
  | Json.str s => s
  | Json.arr xs => String.intercalate "," (jsToStringList xs)
  | Json.obj _ => "[object Object]"

/-- `jsToString` mapped over a list of values. -/
def jsToStringList : List Json → List String
  | [] => []
  | x :: xs => jsToString x :: jsToStringList xs

end

/-- `String(v)` where `v` may be `undefined`. -/
def jsToStringOpt : Option Json → String
  | none => "undefined"
  | some v => jsToString v

/-- JavaScript property access `v.key`: throws a `TypeError` when `v` is
`null` (`JSON.parse` never yields `undefined`), yields `undefined` for a
missing key or a non-object receiver, the field value otherwise. -/
def jsGet (v : Json) (key : String) : Except Unit (Option Json) :=
  match v with
  | Json.null => Except.error ()
  | Json.obj fields => Except.ok ((fields.find? (fun kv => kv.fst == key)).map (·.snd))
  | _ => Except.ok none

/-- JavaScript `a || b`: the first operand if truthy, otherwise the second. -/
def jsOr (a b : Option Json) : Option Json :=
  if jsTruthy a then a else b

/-- Skip JSON whitespace. -/
def skipWs : List Char → List Char
  | c :: cs => if c = ' ' ∨ c = '\n' ∨ c = '\t' ∨ c = '\r' then skipWs cs else c :: cs
  | [] => []

/-- Parse the remainder of a JSON string literal (opening quote already
consumed). Escapes translate `\n`, `\t`, `\r` and pass other escaped
characters through literally. -/
def parseStringChars : Nat → List Char → Option (List Char × List Char)
  | 0, _ => none
  | _ + 1, [] => none
  | fuel + 1, c :: cs =>
    if c = '"' then some ([], cs)
    else if c = '\\' then
      match cs with
      | [] => none
      | e :: cs2 =>
        let ec := if e = 'n' then '\n' else if e = 't' then '\t' else if e = 'r' then '\r' else e
        (parseStringChars fuel cs2).map (fun p => (ec :: p.fst, p.snd))
    else
      (parseStringChars fuel cs).map (fun p => (c :: p.fst, p.snd))

/-- Take leading decimal digits. -/
def takeDigits : List Char → List Char × List Char
  | c :: cs =>
    if c.isDigit then
      let p := takeDigits cs
      (c :: p.fst, p.snd)
    else ([], c :: cs)
  | [] => ([], [])

/-- Digit list to natural number value. -/
def digitsToNat (ds : List Char) : Nat :=
  ds.foldl (fun acc c => acc * 10 + (c.toNat - '0'.toNat)) 0

/-- Parse an integer numeral (optional minus sign, then digits). -/
def parseNumber (cs : List Char) : Option (Json × List Char) :=
  match cs with
  | '-' :: rest =>
    let p := takeDigits rest
    if p.fst.isEmpty then none
    else some (Json.num (-(digitsToNat p.fst : Int)), p.snd)
  | _ =>
    let p := takeDigits cs
    if p.fst.isEmpty then none
    else some (Json.num (digitsToNat p.fst : Int), p.snd)

/-- Check that `pre` is a literal prefix of `cs`, returning the remainder. -/
def expectLit : List Char → List Char → Option (List Char)
  | [], cs => some cs
  | p :: ps, c :: cs => if p = c then expectLit ps cs else none
  | _ :: _, [] => none

mutual

/-- Recursive-descent parser for a JSON value (fuel-indexed). -/
def parseVal : Nat → List Char → Option (Json × List Char)
  | 0, _ => none
  | fuel + 1, cs =>
    match skipWs cs with
    | [] => none
    | c :: rest =>
      if c = 'n' then (expectLit ['u', 'l', 'l'] rest).map (fun r => (Json.null, r))
      else if c = 't' then (expectLit ['r', 'u', 'e'] rest).map (fun r => (Json.bool true, r))
      else if c = 'f' then (expectLit ['a', 'l', 's', 'e'] rest).map (fun r => (Json.bool false, r))
      else if c = '"' then (parseStringChars (fuel + 1) rest).map (fun p => (Json.str (String.mk p.fst), p.snd))
      else if c = '[' then (parseElems fuel rest).map (fun p => (Json.arr p.fst, p.snd))
      else if c = '{' then (parseMembers fuel rest).map (fun p => (Json.obj p.fst, p.snd))
      else parseNumber (c :: rest)

/-- Parse array elements after `[`. -/
def parseElems : Nat → List Char → Option (List Json × List Char)
  | 0, _ => none
  | fuel + 1, cs =>
    match skipWs cs with
    | ']' :: rest => some ([], rest)
    | cs' => do
      let (v, r) ← parseVal fuel cs'
      match skipWs r with
      | ',' :: r2 => do
        let (vs, r3) ← parseElems fuel r2
        pure (v :: vs, r3)
      | ']' :: r2 => pure ([v], r2)
      | _ => none

/-- Parse object members after `{`. -/
def parseMembers : Nat → List Char → Option (List (String × Json) × List Char)
  | 0, _ => none
  | fuel + 1, cs =>
    match skipWs cs with
    | ']' :: _ => none
    | '}' :: rest => some ([], rest)
    | '"' :: rest => do
      let (k, r) ← parseStringChars (fuel + 1) rest
      match skipWs r with
      | ':' :: r2 => do
        let (v, r3) ← parseVal fuel r2
        match skipWs r3 with
        | ',' :: r4 => do
          let (ms, r5) ← parseMembers fuel r4
          pure ((String.mk k, v) :: ms, r5)
        | '}' :: r4 => pure ([(String.mk k, v)], r4)
        | _ => none
      | _ => none
    | _ => none

end

/-- Model of `JSON.parse`: `some v` when the whole input parses as a JSON
value (with only trailing whitespace), `none` when `JSON.parse` would throw a
`SyntaxError`. -/
def jsonParse (s : String) : Option Json :=
  match parseVal (s.length + 1) s.data with
  | some (v, rest) => if (skipWs rest).isEmpty then some v else none
  | none => none

/-- Escape a string for JSON output (quotes and backslashes). -/
def escapeJsonString (s : String) : String :=
  String.mk (s.data.foldr (fun c acc => if c = '"' ∨ c = '\\' then '\\' :: c :: acc else c :: acc) [])

mutual

/-- Serialize a JSON value (model of `JSON.stringify` on the values the system
builds). -/
def renderJson : Json → String
  | Json.null => "null"
  | Json.bool b => if b then "true" else "false"
  | Json.num n => toString n
  | Json.str s => "\"" ++ escapeJsonString s ++ "\""
  | Json.arr xs => "[" ++ String.intercalate "," (renderJsonList xs) ++ "]"
  | Json.obj fs => "\x7b" ++ String.intercalate "," (renderJsonMembers fs) ++ "\x7d"

/-- `renderJson` mapped over array elements. -/
def renderJsonList : List Json → List String
  | [] => []
  | x :: xs => renderJson x :: renderJsonList xs

/-- `renderJson` mapped over object members. -/
def renderJsonMembers : List (String × Json) → List String
  | [] => []
  | kv :: fs => ("\"" ++ escapeJsonString kv.fst ++ "\":" ++ renderJson kv.snd) :: renderJsonMembers fs

end

/-- Truthiness of a plain string (`""` is falsy). -/
def strTruthy (s : String) : Bool := s != ""

/-- Truthiness of `cookieStore.get(name)?.value` (a cookie absent, or present
with the empty value, is falsy). -/
def optTruthy : Option String → Bool
  | some s => s != ""
  | none => false

/-- `s.startsWith(p)` from JavaScript, computed over character lists (the
built-in `String.startsWith` does not reduce inside the kernel). -/
def startsWithStr (s p : String) : Bool := p.data.isPrefixOf s.data

/-- A browser/request cookie jar: name/value pairs. -/
def CookieJar := List (String × String)

/-- `cookies.get(name)?.value`: the value of the named cookie if present. -/
def cookieGet (jar : CookieJar) (name : String) : Option String :=
  (jar.find? (fun kv => kv.fst == name)).map (·.snd)

namespace AuthConfig

/-- Outcome of the health probe `fetch(backendUrl + "/api/v1/health")`:
a response with `res.ok` true whose `res.json()` either yields a value or
throws; a response with a non-success status; or a network failure / timeout
(the fetch promise rejects). -/
inductive ProbeOutcome where
  | ok (body : Except Unit Json)
  | httpError
  | netError

/-- Model of `getAuthProvider` from `src/ui/src/lib/auth/config.ts` (and of
the structurally identical `fetchAuthProvider` in the current middleware):
given the module-level `cachedAuthProvider` cell and the probe outcome, it
returns the resolved provider and the new cache contents. The `try` block is
the `ProbeOutcome.ok` branch; every thrown error is swallowed and falls
through to the `local` default. -/
def getAuthProvider (cachedAuthProvider : Option String) (probe : ProbeOutcome) :
    String × Option String :=
  if optTruthy cachedAuthProvider then
    (cachedAuthProvider.getD "", cachedAuthProvider)
  else
    match probe with
    | ProbeOutcome.ok body =>
      match body with
      | Except.ok data =>
        match jsGet data "auth_provider" with
        | Except.ok ap =>
          let v := if jsTruthy ap then jsToStringOpt ap else "local"
          (v, some v)
        | Except.error _ => ("local", some "local")
      | Except.error _ => ("local", some "local")
    | ProbeOutcome.httpError => ("local", some "local")
    | ProbeOutcome.netError => ("local", some "local")

end AuthConfig

/-- Kind of middleware response: `NextResponse.next()` or
`NextResponse.redirect(url)` (recorded as the request URL the target was
resolved against, plus the target path). -/
inductive MwKind where
  | next
  | redirect (base : String) (target : String)
deriving DecidableEq

/-- A middleware response together with the cookies it sets. -/
structure MwResponse where
  kind : MwKind
  setCookies : List (String × String)
deriving DecidableEq

/-- An incoming navigational request as the middleware sees it. -/
structure NextRequest where
  pathname : String
  url : String
  cookies : CookieJar

namespace Middleware

/-- Cookie name from the current middleware (`src/unnamed/part_000`). -/
def OSS_TOKEN_COOKIE : String := "dograh_auth_token"

/-- Paths that don't require authentication in OSS mode. -/
def PUBLIC_PATHS : List String := ["/auth/login", "/auth/signup"]

/-- Model of `middleware` from `src/unnamed/part_000`, with the provider
already resolved by `fetchAuthProvider` (its first line). -/
def middleware (authProvider : String) (request : NextRequest) : MwResponse :=
  if authProvider != "local" then ⟨MwKind.next, []⟩
  else
    let token := cookieGet request.cookies OSS_TOKEN_COOKIE
    let pathname := request.pathname
    if PUBLIC_PATHS.any (fun p => startsWithStr pathname p) then ⟨MwKind.next, []⟩
    else if !(optTruthy token) then ⟨MwKind.redirect request.url "/auth/login", []⟩
    else ⟨MwKind.next, []⟩

end Middleware

namespace LegacyMiddleware

/-- Cookie names from the legacy middleware (`src/ui/src/middleware.ts`). -/
def OSS_TOKEN_COOKIE : String := "dograh_oss_token"

/-- Legacy user cookie name. -/
def OSS_USER_COOKIE : String := "dograh_oss_user"

/-- A JavaScript evaluation fault. -/
inductive JsError where
  | referenceError
deriving DecidableEq

/-- The ambient process environment and entropy the legacy middleware reads. -/
structure ProcessEnv where
  NEXT_PUBLIC_AUTH_PROVIDER : Option String
  NEXT_PUBLIC_LOCAL_AUTH_ENABLED : Option String
  nowMs : Nat
  uuid : String

/-- `generateOSSToken()` from `src/ui/src/middleware.ts`. -/
def generateOSSToken (env : ProcessEnv) : String :=
  "oss_" ++ toString env.nowMs ++ "_" ++ env.uuid

/-- `process.env.NEXT_PUBLIC_AUTH_PROVIDER || 'stack'` (the first line of the
legacy middleware). -/
def resolvedProvider (env : ProcessEnv) : String :=
  match env.NEXT_PUBLIC_AUTH_PROVIDER with
  | some s => if s != "" then s else "stack"
  | none => "stack"

/-- Model of `middleware` from `src/ui/src/middleware.ts`. The body mentions
an identifier `token` that no declaration in the file binds, so evaluating
the condition `!token` in local mode faults with a `ReferenceError`; the
fault is modelled by binding `token` to `Except.error`, with the rest of the
source body kept as the (dead) continuation of that bind. -/
def middleware (env : ProcessEnv) (request : NextRequest) : Except JsError MwResponse :=
  let authProvider := resolvedProvider env
  if authProvider != "local" then Except.ok ⟨MwKind.next, []⟩
  else
    let isSignInPage := request.pathname == "/sign-in" || request.pathname == "/sign-up"
    (Except.error JsError.referenceError : Except JsError String).bind (fun token =>
      if !(strTruthy token) && !isSignInPage then
        if env.NEXT_PUBLIC_LOCAL_AUTH_ENABLED == some "true" then
          Except.ok ⟨MwKind.redirect request.url "/sign-in", []⟩
        else
          let newToken := generateOSSToken env
          let user := Json.obj [("id", Json.str newToken), ("name", Json.str "Local User"),
            ("provider", Json.str "local"), ("organizationId", Json.str ("org_" ++ newToken))]
          Except.ok ⟨MwKind.next,
            [(OSS_TOKEN_COOKIE, newToken), (OSS_USER_COOKIE, renderJson user)]⟩
      else Except.ok ⟨MwKind.next, []⟩)

end LegacyMiddleware

/-- The user-profile snapshot (`LocalUser` from `src/ui/src/lib/auth/types`),
as the server reconstructs it. -/
structure LocalUser where
  id : String
  name : String
  email : Option String
  provider : String
  organizationId : Option String
deriving DecidableEq

namespace ServerAuth

/-- Token cookie name used by the server-side resolver. -/
def OSS_TOKEN_COOKIE : String := "dograh_auth_token"

/-- User cookie name used by the server-side resolver. -/
def OSS_USER_COOKIE : String := "dograh_auth_user"

/-- The `try` block of `getOSSUser`: `JSON.parse(userCookie)` followed by the
field accesses building the normalized profile. An `Except.error` is any
exception the block throws (a `SyntaxError` from `JSON.parse`, or the
`TypeError` from a property access on a parsed `null`). -/
def parseUserCookie (userCookie : String) : Except Unit LocalUser :=
  match jsonParse userCookie with
  | none => Except.error ()
  | some parsed => do
    let idv ← jsGet parsed "id"
    let namev ← jsGet parsed "name"
    let emailv ← jsGet parsed "email"
    let orgCamel ← jsGet parsed "organizationId"
    let orgSnake ← jsGet parsed "organization_id"
    Except.ok
      { id := jsToStringOpt idv
        name := jsToString ((jsOr namev (jsOr emailv (some (Json.str "Local User")))).getD
          (Json.str "Local User"))
        email := emailv.map jsToString
        provider := "local"
        organizationId :=
          if jsTruthy orgCamel then some (jsToStringOpt orgCamel)
          else if jsTruthy orgSnake then some (jsToStringOpt orgSnake)
          else none }

/-- Model of `getOSSUser` (server half of
`src/ui/src/lib/auth/providers/LocalProviderWrapper.tsx`): parse the user
cookie when it is (truthily) present, swallowing any exception into `null`;
otherwise synthesize a degraded profile from the token cookie; otherwise
`null`. -/
def getOSSUser (jar : CookieJar) : Option LocalUser :=
  let userCookie := cookieGet jar OSS_USER_COOKIE
  if optTruthy userCookie then
    match parseUserCookie (userCookie.getD "") with
    | Except.ok u => some u
    | Except.error _ => none
  else
    let token := cookieGet jar OSS_TOKEN_COOKIE
    if optTruthy token then
      some { id := token.getD "", name := "Local User", email := none, provider := "local"
             organizationId := some ("org_" ++ token.getD "") }
    else none

/-- Model of `getOSSToken`: the raw token cookie value, with
`?.value || null` collapsing the empty value to `null`. -/
def getOSSToken (jar : CookieJar) : Option String :=
  let v := cookieGet jar OSS_TOKEN_COOKIE
  if optTruthy v then v else none

end ServerAuth

/-- A route-handler response: HTTP status, JSON body, and the cookies the
handler sets on the store (name/value; expiry attributes are not tracked). -/
structure RouteResponse where
  status : Nat
  body : Json
  setCookies : List (String × String)

namespace OssRoute

/-- Token cookie name used by the `/api/auth/oss` route family
(`src/unnamed/part_003`). -/
def OSS_TOKEN_COOKIE : String := "dograh_auth_token"

/-- User cookie name used by the `/api/auth/oss` route family. -/
def OSS_USER_COOKIE : String := "dograh_auth_user"

/-- Model of the hydration endpoint `GET /api/auth/oss`
(`src/unnamed/part_003`, second document), with the provider already resolved
by `getAuthProvider` (its first line). The `JSON.parse(user)` call is not
guarded by any `try`, so a malformed user cookie makes the handler throw
(`Except.error`). -/
def ossGET (authProvider : String) (jar : CookieJar) : Except Unit RouteResponse :=
  if authProvider != "local" then
    Except.ok ⟨400, Json.obj [("error", Json.str "Not in OSS mode")], []⟩
  else
    let token := cookieGet jar OSS_TOKEN_COOKIE
    let user := cookieGet jar OSS_USER_COOKIE
    if !(optTruthy token) then
      Except.ok ⟨401, Json.obj [("error", Json.str "Not authenticated")], []⟩
    else if optTruthy user then
      match jsonParse (user.getD "") with
      | some u =>
        Except.ok ⟨200, Json.obj [("token", Json.str (token.getD "")), ("user", u)], []⟩
      | none => Except.error ()
    else
      Except.ok ⟨200, Json.obj [("token", Json.str (token.getD "")),
        ("user", Json.obj [("id", Json.str (token.getD "")), ("name", Json.str "Local User"),
          ("provider", Json.str "local")])], []⟩

/-- Model of `POST /api/auth/session` (`src/unnamed/part_003`, third
document): destructures `{token, user}` from the request body, rejects a
falsy token, otherwise persists both cookies (the user serialized with
`JSON.stringify`). -/
def sessionPOST (body : Json) : Except Unit RouteResponse := do
  let token ← jsGet body "token"
  let user ← jsGet body "user"
  if !(jsTruthy token) then
    pure ⟨400, Json.obj [("error", Json.str "Missing token")], []⟩
  else
    pure ⟨200, Json.obj [("success", Json.bool true)],
      [(OSS_TOKEN_COOKIE, jsToStringOpt token), (OSS_USER_COOKIE, renderJson (user.getD Json.null))]⟩

/-- Model of `POST` logout (`src/unnamed/part_003`, first document): sets both
cookies to the empty value with immediate expiry. -/
def logoutPOST : RouteResponse :=
  ⟨200, Json.obj [("success", Json.bool true)], [(OSS_TOKEN_COOKIE, ""), (OSS_USER_COOKIE, "")]⟩

end OssRoute

namespace RegisterRoute

/-- Token cookie name written by the register route
(`src/ui/src/app/api/config/auth/route.ts`). -/
def OSS_TOKEN_COOKIE : String := "dograh_oss_token"

/-- User cookie name written by the register route. -/
def OSS_USER_COOKIE : String := "dograh_oss_user"

/-- A backend `fetch` outcome: a response (its `ok` flag, status, and the
result of reading its JSON body for the first time) or a rejected promise
(network error). -/
inductive FetchResult where
  | resp (ok : Bool) (status : Nat) (body : Except Unit Json)
  | netError

/-- The two upstream calls the register handler makes. -/
structure RegisterEnv where
  registerResp : FetchResult
  userConfigResp : FetchResult

/-- One field of a JS object literal as `JSON` serialization sees it: a field
whose value is `undefined` is dropped. -/
def jsObjField (key : String) (v : Option Json) : List (String × Json) :=
  match v with
  | some x => [(key, x)]
  | none => []

/-- The `try` block of the register `POST` handler. Both the network errors
and the second read of the already-consumed register response body (reached
when the register call succeeds but the profile fetch is not ok) throw. -/
def registerTry (env : RegisterEnv) : Except Unit RouteResponse :=
  match env.registerResp with
  | FetchResult.netError => Except.error ()
  | FetchResult.resp ok status body =>
    if ok then
      body.bind fun data =>
      (jsGet data "access_token").bind fun token =>
      match env.userConfigResp with
      | FetchResult.netError => Except.error ()
      | FetchResult.resp uok _ ubody =>
        if uok then
          ubody.bind fun userData =>
          (jsGet userData "id").bind fun uid =>
          (jsGet userData "email").bind fun uemail =>
          (jsGet userData "selected_organization_id").bind fun uorg =>
          let user := Json.obj (jsObjField "id" uid ++ jsObjField "name" uemail ++
            [("provider", Json.str "local")] ++ jsObjField "organizationId" uorg)
          Except.ok ⟨200, Json.obj [("success", Json.bool true), ("user", user)],
            [(OSS_TOKEN_COOKIE, jsToStringOpt token), (OSS_USER_COOKIE, renderJson user)]⟩
        else
          Except.error ()
    else
      body.bind fun errorData =>
      (jsGet errorData "detail").bind fun detail =>
      Except.ok ⟨status,
        Json.obj [("error", (jsOr detail (some (Json.str "Registration failed"))).getD Json.null)],
        []⟩

/-- Model of the register `POST` handler: the `try` block with its `catch`
mapping any thrown error to a 500 response with no cookies written. -/
def registerPOST (env : RegisterEnv) : RouteResponse :=
  match registerTry env with
  | Except.ok r => r
  | Except.error _ => ⟨500, Json.obj [("error", Json.str "Internal server error")], []⟩

end RegisterRoute

namespace LocalAuthService

/-- Outcome of one hydration fetch (`fetch('/api/auth/oss')` inside
`initializeAuth`): a 200 response carrying `token` and `user`, or any failure
the `try`/`catch` and the `response.ok` check swallow (non-success status,
network error, unreadable body) — which leaves the cache untouched. -/
inductive FetchOutcome where
  | success (token : String) (user : Json)
  | failure

/-- The client's view of the `authPromise` field. -/
inductive PromiseView where
  | nullP
  | pending (o : FetchOutcome)
  | resolvedP

/-- In-memory state of the `LocalAuthService` singleton. -/
structure SvcState where
  currentToken : Option String
  currentUser : Option Json
  authPromise : PromiseView

/-- Effect of a completed `initializeAuth` on the in-memory cache. -/
def applyOutcome (o : FetchOutcome) (s : SvcState) : SvcState :=
  match o with
  | FetchOutcome.success t u => { s with currentToken := some t, currentUser := some u }
  | FetchOutcome.failure => s

/-- Truthiness of `this.currentToken`. -/
def tokenTruthy (s : SvcState) : Bool := optTruthy s.currentToken

/-- Sequential (single-caller) model of `ensureAuth`: awaits the in-flight
hydration if there is one; otherwise, if the token cache is empty, starts and
awaits a fresh hydration. Returns the new state and the number of hydration
fetches issued; `env n` is the outcome of the `n`-th fetch this call issues. -/
def ensureAuth (env : Nat → FetchOutcome) (s : SvcState) : SvcState × Nat :=
  match s.authPromise with
  | PromiseView.pending o => ({ applyOutcome o s with authPromise := PromiseView.resolvedP }, 0)
  | PromiseView.resolvedP => (s, 0)
  | PromiseView.nullP =>
    if tokenTruthy s then (s, 0)
    else ({ applyOutcome (env 0) s with authPromise := PromiseView.resolvedP }, 1)

/-- Sequential model of `getAccessToken` (`src/unnamed/part_005`): the SSR
placeholder on the server; on the client `ensureAuth`, then at most one
re-initialization when the token is still empty, then the token or `""`.
Returns the result, the number of hydration fetches issued, and the final
state. Totality of this function models the method never throwing. -/
def getAccessToken (isServer : Bool) (env : Nat → FetchOutcome) (s : SvcState) :
    String × Nat × SvcState :=
  if isServer then ("ssr-placeholder-token", 0, s)
  else
    let p := ensureAuth env s
    if tokenTruthy p.fst then (p.fst.currentToken.getD "", p.snd, p.fst)
    else
      let s2 := { applyOutcome (env p.snd) p.fst with authPromise := PromiseView.resolvedP }
      if tokenTruthy s2 then (s2.currentToken.getD "", p.snd + 1, s2)
      else ("", p.snd + 1, s2)

end LocalAuthService

namespace LocalAuthService

/-- A promise cell in the interleaving model of the client event loop. -/
inductive PromEntry where
  | pendingP (o : FetchOutcome)
  | settledP

/-- Program counter of one client-side `getAccessToken()` caller. JavaScript
is single-threaded: the code between two `await`s runs atomically, and each
constructor names the next resume point. -/
inductive CallerPC where
  | start
  | ensured
  | waitEnsure (p : Nat)
  | waitRetry (p : Nat)
  | done (r : String)
deriving DecidableEq

/-- Shared state of the singleton service plus two concurrent
`getAccessToken()` callers. `fetchCount` counts every hydration fetch issued
to `/api/auth/oss` so far. -/
structure MachineConfig where
  currentToken : Option String
  currentUser : Option Json
  authPromise : Option Nat
  promises : List PromEntry
  fetchCount : Nat
  pcA : CallerPC
  pcB : CallerPC

/-- `this.authPromise = this.initializeAuth()`: running `initializeAuth` up to
its first suspension issues the fetch (outcome `env fetchCount`), creates a
fresh pending promise, and publishes it in `authPromise`. -/
def startFetch (env : Nat → FetchOutcome) (c : MachineConfig) : MachineConfig × Nat :=
  let id := c.promises.length
  ({ c with promises := c.promises ++ [PromEntry.pendingP (env c.fetchCount)],
            fetchCount := c.fetchCount + 1, authPromise := some id }, id)

/-- Scheduler settles a pending promise: the continuation of `initializeAuth`
runs (a success populates the cache, a swallowed failure changes nothing) and
the promise becomes settled. Settling a promise that is not pending is a
no-op. -/
def settle (c : MachineConfig) (p : Nat) : MachineConfig :=
  match c.promises.get? p with
  | some (PromEntry.pendingP o) =>
    let c1 :=
      match o with
      | FetchOutcome.success t u => { c with currentToken := some t, currentUser := some u }
      | FetchOutcome.failure => c
    { c1 with promises := c1.promises.set p PromEntry.settledP }
  | _ => c

/-- The synchronous block starting at `if (!this.currentToken)` after
`ensureAuth` has completed: either return the cached token, or issue the one
re-initialization and suspend on it. -/
def resumeCheck (env : Nat → FetchOutcome) (c : MachineConfig) : MachineConfig × CallerPC :=
  if optTruthy c.currentToken then (c, CallerPC.done (c.currentToken.getD ""))
  else
    let p := startFetch env c
    (p.fst, CallerPC.waitRetry p.snd)

/-- One atomic step of a caller at `pc` (a no-op while it is suspended on a
promise that is still pending). -/
def stepCaller (env : Nat → FetchOutcome) (c : MachineConfig) (pc : CallerPC) :
    MachineConfig × CallerPC :=
  match pc with
  | CallerPC.start =>
    match c.authPromise with
    | some p => (c, CallerPC.waitEnsure p)
    | none =>
      if optTruthy c.currentToken then (c, CallerPC.ensured)
      else
        let p := startFetch env c
        (p.fst, CallerPC.waitEnsure p.snd)
  | CallerPC.ensured => resumeCheck env c
  | CallerPC.waitEnsure p =>
    match c.promises.get? p with
    | some PromEntry.settledP => resumeCheck env c
    | _ => (c, CallerPC.waitEnsure p)
  | CallerPC.waitRetry p =>
    match c.promises.get? p with
    | some PromEntry.settledP =>
      if optTruthy c.currentToken then (c, CallerPC.done (c.currentToken.getD ""))
      else (c, CallerPC.done "")
    | _ => (c, CallerPC.waitRetry p)
  | CallerPC.done r => (c, CallerPC.done r)

/-- A scheduler action: advance caller A, advance caller B, or deliver the
completion of promise `p`. -/
inductive SchedAction where
  | stepA
  | stepB
  | settleP (p : Nat)
deriving DecidableEq

/-- One machine step. -/
def stepM (env : Nat → FetchOutcome) (a : SchedAction) (c : MachineConfig) : MachineConfig :=
  match a with
  | SchedAction.stepA => let r := stepCaller env c c.pcA; { r.fst with pcA := r.snd }
  | SchedAction.stepB => let r := stepCaller env c c.pcB; { r.fst with pcB := r.snd }
  | SchedAction.settleP p => settle c p

/-- Run a schedule. -/
def run (env : Nat → FetchOutcome) : List SchedAction → MachineConfig → MachineConfig
  | [], c => c
  | a :: rest, c => run env rest (stepM env a c)

/-- Starting configuration of the coalescing scenario: the singleton
constructor has just run on the client, issuing the initial hydration fetch
(promise 0, outcome `env 0`, one fetch counted) and storing it in
`authPromise`; two `getAccessToken()` callers are about to run, before the
hydration completes. -/
def initTwoCallers (env : Nat → FetchOutcome) : MachineConfig :=
  { currentToken := none, currentUser := none, authPromise := some 0,
    promises := [PromEntry.pendingP (env 0)], fetchCount := 1,
    pcA := CallerPC.start, pcB := CallerPC.start }

end LocalAuthService

namespace LocalAuthService

/-- Caller program counters reachable while the initial hydration promise is
still pending: the caller is yet to run, or is suspended on promise 0. -/
def pcSharesInit (pc : CallerPC) : Prop :=
  pc = CallerPC.start ∨ pc = CallerPC.waitEnsure 0

/-- Caller program counters reachable after the initial hydration settled
with token `t`: additionally, the caller may have finished with `t`. -/
def pcAfterInit (t : String) (pc : CallerPC) : Prop :=
  pc = CallerPC.start ∨ pc = CallerPC.waitEnsure 0 ∨ pc = CallerPC.done t

/-- Invariant of the coalescing scenario when the initial hydration succeeds
with token `t` and user `u`: only the constructor's single fetch has been
issued, `authPromise` still names promise 0, and each caller either shares
that one promise or has completed with the hydrated token. -/
def Coalesced (t : String) (u : Json) (c : MachineConfig) : Prop :=
  c.fetchCount = 1 ∧ c.authPromise = some 0 ∧
  ((c.promises = [PromEntry.pendingP (FetchOutcome.success t u)] ∧ c.currentToken = none ∧
      pcSharesInit c.pcA ∧ pcSharesInit c.pcB) ∨
    (c.promises = [PromEntry.settledP] ∧ c.currentToken = some t ∧
      pcAfterInit t c.pcA ∧ pcAfterInit t c.pcB))

end LocalAuthService

/-!
## Claim theorems
-/

/-- Claim C10: under the `local` provider, the legacy middleware variant at
`src/ui/src/middleware.ts` always faults with a `ReferenceError` on the
undeclared identifier `token` — it never produces a redirect, a pass-through
response, or minted cookies, so the gating and legacy-minting branches are
unreachable. -/
theorem legacy_middleware_local_reference_error
    (env : LegacyMiddleware.ProcessEnv) (req : NextRequest)
    (h : LegacyMiddleware.resolvedProvider env = "local") :
    LegacyMiddleware.middleware env req = Except.error LegacyMiddleware.JsError.referenceError := by
  unfold LegacyMiddleware.middleware
  rw [h]
  simp [Except.bind]

/-- Witness for C10 at a concrete environment and request. -/
theorem legacy_middleware_local_reference_error_witness :
    LegacyMiddleware.middleware ⟨some "local", none, 0, "u"⟩ ⟨"/workflow", "http://h/workflow", []⟩ =
      Except.error LegacyMiddleware.JsError.referenceError :=
  legacy_middleware_local_reference_error ⟨some "local", none, 0, "u"⟩
    ⟨"/workflow", "http://h/workflow", []⟩ (by rfl)

/-- Claim C2: the route gate never creates or refreshes credentials — in both
middleware variants, any response actually produced carries no `Set-Cookie`
and no minted token, for every request and every provider mode. (In the
legacy variant the minting branch exists in the source but the evaluation
fault of C10 makes it unreachable, so no `Except.ok` response ever carries a
cookie.) -/
theorem gate_never_writes_cookies :
    (∀ (authProvider : String) (req : NextRequest),
      (Middleware.middleware authProvider req).setCookies = []) ∧
    (∀ (env : LegacyMiddleware.ProcessEnv) (req : NextRequest) (resp : MwResponse),
      LegacyMiddleware.middleware env req = Except.ok resp → resp.setCookies = []) := by
  constructor
  · intro authProvider req
    unfold Middleware.middleware
    split
    · rfl
    · dsimp only
      split
      · rfl
      · split <;> rfl
  · intro env req resp h
    unfold LegacyMiddleware.middleware at h
    by_cases hp : LegacyMiddleware.resolvedProvider env != "local"
    · simp only [hp, if_true] at h
      cases h
      rfl
    · simp only [hp, if_false] at h
      simp [Except.bind] at h

/-- Witness for C2 at concrete inputs (a gated local-mode request, and a
hosted-mode request through the legacy variant). -/
theorem gate_never_writes_cookies_witness :
    (Middleware.middleware "local" ⟨"/workflow", "http://h/workflow", []⟩).setCookies = [] ∧
    (MwResponse.mk MwKind.next []).setCookies = [] :=
  ⟨gate_never_writes_cookies.1 "local" ⟨"/workflow", "http://h/workflow", []⟩,
   gate_never_writes_cookies.2 ⟨some "stack", none, 0, "u"⟩ ⟨"/x", "http://h/x", []⟩
     ⟨MwKind.next, []⟩ (by rfl)⟩

/-- Claim C4: under a non-`local` (hosted) provider, both middleware variants
pass every request through unmodified: the result does not depend on the
request's cookies (two requests identical except for their cookie jars get
the same response) and no cookie-based redirect ever occurs. -/
theorem hosted_gate_ignores_cookies (p : String) (hp : p ≠ "local") :
    (∀ (path url : String) (c1 c2 : CookieJar),
      Middleware.middleware p ⟨path, url, c1⟩ = Middleware.middleware p ⟨path, url, c2⟩) ∧
    (∀ req : NextRequest, Middleware.middleware p req = ⟨MwKind.next, []⟩) ∧
    (∀ (env : LegacyMiddleware.ProcessEnv) (req : NextRequest),
      LegacyMiddleware.resolvedProvider env = p →
      LegacyMiddleware.middleware env req = Except.ok ⟨MwKind.next, []⟩) := by
  have hb : (p != "local") = true := by simpa using hp
  refine ⟨?_, ?_, ?_⟩
  · intro path url c1 c2
    unfold Middleware.middleware
    rw [hb]
    simp
  · intro req
    unfold Middleware.middleware
    rw [hb]
    simp
  · intro env req hres
    unfold LegacyMiddleware.middleware
    rw [hres]
    simp [hb]

/-- Witness for C4 under the hosted provider at concrete requests differing
only in their cookies. -/
theorem hosted_gate_ignores_cookies_witness :
    Middleware.middleware "hosted" ⟨"/w", "u", [("dograh_auth_token", "a")]⟩ =
      Middleware.middleware "hosted" ⟨"/w", "u", []⟩ ∧
    LegacyMiddleware.middleware ⟨some "hosted", none, 0, "u"⟩ ⟨"/w", "u", []⟩ =
      Except.ok ⟨MwKind.next, []⟩ :=
  ⟨(hosted_gate_ignores_cookies "hosted" (by decide)).1 "/w" "u" [("dograh_auth_token", "a")] [],
   (hosted_gate_ignores_cookies "hosted" (by decide)).2.2 ⟨some "hosted", none, 0, "u"⟩
     ⟨"/w", "u", []⟩ (by rfl)⟩

/-- Claim C7: the provider resolver never propagates a probe failure (it is a
total function): a network error or timeout, a non-success status, an
unreadable body, or a body on which the field access throws, all resolve to
`local`; a successful probe reporting a (non-empty string) provider value
resolves to that value. -/
theorem provider_resolver_safe_default :
    (AuthConfig.getAuthProvider none AuthConfig.ProbeOutcome.netError = ("local", some "local")) ∧
    (AuthConfig.getAuthProvider none AuthConfig.ProbeOutcome.httpError = ("local", some "local")) ∧
    (AuthConfig.getAuthProvider none (AuthConfig.ProbeOutcome.ok (Except.error ())) =
      ("local", some "local")) ∧
    (AuthConfig.getAuthProvider none (AuthConfig.ProbeOutcome.ok (Except.ok Json.null)) =
      ("local", some "local")) ∧
    (∀ (body : Json) (v : String), v ≠ "" →
      jsGet body "auth_provider" = Except.ok (some (Json.str v)) →
      AuthConfig.getAuthProvider none (AuthConfig.ProbeOutcome.ok (Except.ok body)) =
        (v, some v)) := by
  refine ⟨rfl, rfl, rfl, rfl, ?_⟩
  intro body v hv hget
  simp [AuthConfig.getAuthProvider, hget, jsTruthy, jsToStringOpt, jsToString, optTruthy, hv]

/-- Witness for C7 at a successful probe reporting `hosted`. -/
theorem provider_resolver_safe_default_witness :
    AuthConfig.getAuthProvider none
        (AuthConfig.ProbeOutcome.ok (Except.ok (Json.obj [("auth_provider", Json.str "hosted")]))) =
      ("hosted", some "hosted") :=
  provider_resolver_safe_default.2.2.2.2 (Json.obj [("auth_provider", Json.str "hosted")])
    "hosted" (by decide) (by rfl)

/-- Counterexample to claim C3 as stated: a request under the `local`
provider whose token cookie is present (with the empty value, as in
`Cookie: dograh_auth_token=`) on a non-allow-listed path is redirected to the
sign-in path, although the claim says a request with the token cookie present
passes through. The gate tests the cookie's truthiness, not its presence. -/
theorem local_gate_empty_token_redirects :
    cookieGet [("dograh_auth_token", "")] Middleware.OSS_TOKEN_COOKIE = some "" ∧
    Middleware.middleware "local" ⟨"/workflow", "http://h/workflow", [("dograh_auth_token", "")]⟩ =
      ⟨MwKind.redirect "http://h/workflow" "/auth/login", []⟩ := by
  exact ⟨by rfl, by rfl⟩

/-- Claim C3 as amended: under the `local` provider, a request whose token
cookie is absent **or empty** and whose path starts with no allow-listed
public prefix is redirected to the sign-in path; a request with a non-empty
token cookie, or a path matching the allow-list by prefix, passes through. -/
theorem local_gate_spec (req : NextRequest) :
    (optTruthy (cookieGet req.cookies Middleware.OSS_TOKEN_COOKIE) = false →
      Middleware.PUBLIC_PATHS.any (fun p => startsWithStr req.pathname p) = false →
      Middleware.middleware "local" req = ⟨MwKind.redirect req.url "/auth/login", []⟩) ∧
    (optTruthy (cookieGet req.cookies Middleware.OSS_TOKEN_COOKIE) = true →
      Middleware.middleware "local" req = ⟨MwKind.next, []⟩) ∧
    (Middleware.PUBLIC_PATHS.any (fun p => startsWithStr req.pathname p) = true →
      Middleware.middleware "local" req = ⟨MwKind.next, []⟩) := by
  refine ⟨?_, ?_, ?_⟩
  · intro htok hpath
    unfold Middleware.middleware
    simp [hpath, htok]
  · intro htok
    unfold Middleware.middleware
    by_cases hpath : Middleware.PUBLIC_PATHS.any (fun p => startsWithStr req.pathname p)
    · simp [hpath]
    · simp [hpath, htok]
  · intro hpath
    unfold Middleware.middleware
    simp [hpath]

/-- Witness for the amended C3 at concrete requests: a cookieless request to
a gated path redirects; a request with a non-empty token passes; a cookieless
request to the sign-in path passes. -/
theorem local_gate_spec_witness :
    Middleware.middleware "local" ⟨"/workflow", "http://h/workflow", []⟩ =
      ⟨MwKind.redirect "http://h/workflow" "/auth/login", []⟩ ∧
    Middleware.middleware "local" ⟨"/workflow", "http://h/workflow", [("dograh_auth_token", "t1")]⟩ =
      ⟨MwKind.next, []⟩ ∧
    Middleware.middleware "local" ⟨"/auth/login", "http://h/auth/login", []⟩ =
      ⟨MwKind.next, []⟩ :=
  ⟨(local_gate_spec ⟨"/workflow", "http://h/workflow", []⟩).1 (by decide) (by decide),
   (local_gate_spec ⟨"/workflow", "http://h/workflow", [("dograh_auth_token", "t1")]⟩).2.1 (by decide),
   (local_gate_spec ⟨"/auth/login", "http://h/auth/login", []⟩).2.2 (by decide)⟩

/-- Counterexample to claim C1 as stated: with the token cookie present (and
non-empty) but the user cookie holding a string that is not valid JSON,
`getOSSUser` returns `null` — not the parsed snapshot and not the degraded
profile — although the claim says `null` is returned only when the token
cookie is absent. (The `catch` in `getOSSUser` returns `null` directly
without falling back to the token.) -/
theorem getOSSUser_token_present_returns_null :
    cookieGet [("dograh_auth_token", "tok"), ("dograh_auth_user", "\x7b")]
        ServerAuth.OSS_TOKEN_COOKIE = some "tok" ∧
    ServerAuth.getOSSUser [("dograh_auth_token", "tok"), ("dograh_auth_user", "\x7b")] = none := by
  exact ⟨by rfl, by rfl⟩

/-- Claim C1 as amended: when the token cookie is present with a non-empty
value, server-side user resolution is non-null **except** when a non-empty
user cookie fails to parse: with no (truthy) user cookie both `getOSSUser`
and the `/auth/oss` endpoint produce the degraded profile
(id = token, name = "Local User"); with a parseable user cookie they produce
the parsed snapshot; and a `null` result can only come from a non-empty,
unparseable user cookie. -/
theorem token_implies_resolvable_user (jar : CookieJar) (t : String)
    (htok : cookieGet jar ServerAuth.OSS_TOKEN_COOKIE = some t) (ht : t ≠ "") :
    (cookieGet jar ServerAuth.OSS_USER_COOKIE = none →
      ServerAuth.getOSSUser jar =
        some ⟨t, "Local User", none, "local", some ("org_" ++ t)⟩ ∧
      OssRoute.ossGET "local" jar = Except.ok ⟨200,
        Json.obj [("token", Json.str t),
          ("user", Json.obj [("id", Json.str t), ("name", Json.str "Local User"),
            ("provider", Json.str "local")])], []⟩) ∧
    (∀ s u, cookieGet jar ServerAuth.OSS_USER_COOKIE = some s →
      ServerAuth.parseUserCookie s = Except.ok u →
      s ≠ "" →
      ServerAuth.getOSSUser jar = some u) ∧
    (∀ s v, cookieGet jar ServerAuth.OSS_USER_COOKIE = some s →
      jsonParse s = some v →
      s ≠ "" →
      OssRoute.ossGET "local" jar =
        Except.ok ⟨200, Json.obj [("token", Json.str t), ("user", v)], []⟩) ∧
    (ServerAuth.getOSSUser jar = none →
      ∃ s, cookieGet jar ServerAuth.OSS_USER_COOKIE = some s ∧ s ≠ "" ∧
        ServerAuth.parseUserCookie s = Except.error ()) := by
  have htb : (t != "") = true := by simpa using ht
  have htok2 : cookieGet jar OssRoute.OSS_TOKEN_COOKIE = some t := htok
  refine ⟨?_, ?_, ?_, ?_⟩
  · intro huser
    have huser2 : cookieGet jar OssRoute.OSS_USER_COOKIE = none := huser
    constructor
    · unfold ServerAuth.getOSSUser
      rw [huser, htok]
      simp [optTruthy, htb]
    · unfold OssRoute.ossGET
      rw [htok2, huser2]
      simp [optTruthy, htb]
  · intro s u huser hparse hs
    unfold ServerAuth.getOSSUser
    rw [huser]
    have hsb : (s != "") = true := by simpa using hs
    simp [optTruthy, hsb, hparse]
  · intro s v huser hparse hs
    have huser2 : cookieGet jar OssRoute.OSS_USER_COOKIE = some s := huser
    unfold OssRoute.ossGET
    rw [htok2, huser2]
    have hsb : (s != "") = true := by simpa using hs
    simp [optTruthy, htb, hsb, hparse]
  · intro hnull
    unfold ServerAuth.getOSSUser at hnull
    rcases huser : cookieGet jar ServerAuth.OSS_USER_COOKIE with _ | s
    · rw [huser, htok] at hnull
      simp [optTruthy, htb] at hnull
    · rw [huser] at hnull
      by_cases hs : s = ""
      · subst hs
        rw [htok] at hnull
        simp [optTruthy, htb] at hnull
      · have hsb : (s != "") = true := by simpa using hs
        simp only [optTruthy, hsb, if_true, Option.getD_some] at hnull
        refine ⟨s, rfl, hs, ?_⟩
        rcases hp : ServerAuth.parseUserCookie s with e | u
        · rfl
        · rw [hp] at hnull
          simp at hnull

/-- Witness for the amended C1: a jar holding only a non-empty token cookie
resolves to the degraded profile on both paths. -/
theorem token_implies_resolvable_user_witness :
    ServerAuth.getOSSUser [("dograh_auth_token", "tok")] =
      some ⟨"tok", "Local User", none, "local", some "org_tok"⟩ ∧
    OssRoute.ossGET "local" [("dograh_auth_token", "tok")] = Except.ok ⟨200,
      Json.obj [("token", Json.str "tok"),
        ("user", Json.obj [("id", Json.str "tok"), ("name", Json.str "Local User"),
          ("provider", Json.str "local")])], []⟩ :=
  (token_implies_resolvable_user [("dograh_auth_token", "tok")] "tok" (by rfl) (by decide)).1
    (by rfl)

/-- Counterexample to claim C9 as stated: on the `/auth/oss` hydration
endpoint, when a token cookie is present and the user cookie is not valid
JSON, the unguarded `JSON.parse(user)` throws and the exception escapes the
handler (no response is produced), although the claim says no exception
escapes. -/
theorem ossGET_malformed_user_cookie_throws :
    OssRoute.ossGET "local" [("dograh_auth_token", "tok9"), ("dograh_auth_user", "\x7bbad")] =
      Except.error () := by
  rfl

/-- Claim C9 as amended: a user cookie that is not valid JSON makes
server-side `getOSSUser` return `null` without any exception escaping (the
parse error is caught and logged); the `/auth/oss` hydration endpoint,
however, has no guard around its `JSON.parse`, so with a (truthy) token
cookie also present the handler throws instead of producing a response. -/
theorem malformed_user_cookie_resolution (jar : CookieJar) (s : String)
    (huser : cookieGet jar ServerAuth.OSS_USER_COOKIE = some s)
    (hs : s ≠ "") (hbad : jsonParse s = none) :
    ServerAuth.getOSSUser jar = none ∧
    (optTruthy (cookieGet jar OssRoute.OSS_TOKEN_COOKIE) = true →
      OssRoute.ossGET "local" jar = Except.error ()) := by
  have hsb : (s != "") = true := by simpa using hs
  constructor
  · unfold ServerAuth.getOSSUser
    rw [huser]
    simp [optTruthy, hsb, ServerAuth.parseUserCookie, hbad]
  · intro htok
    have huser2 : cookieGet jar OssRoute.OSS_USER_COOKIE = some s := huser
    rcases htokv : cookieGet jar OssRoute.OSS_TOKEN_COOKIE with _ | tv
    · rw [htokv] at htok
      simp [optTruthy] at htok
    · rw [htokv] at htok
      simp only [optTruthy] at htok
      unfold OssRoute.ossGET
      rw [htokv, huser2]
      simp [optTruthy, htok, hsb, hbad]

/-- Witness for the amended C9 at a concrete jar with a malformed user
cookie and a token cookie. -/
theorem malformed_user_cookie_resolution_witness :
    ServerAuth.getOSSUser [("dograh_auth_token", "tok9"), ("dograh_auth_user", "not json")] = none ∧
    OssRoute.ossGET "local" [("dograh_auth_token", "tok9"), ("dograh_auth_user", "not json")] =
      Except.error () :=
  ⟨(malformed_user_cookie_resolution [("dograh_auth_token", "tok9"), ("dograh_auth_user", "not json")]
      "not json" (by rfl) (by decide) (by rfl)).1,
   (malformed_user_cookie_resolution [("dograh_auth_token", "tok9"), ("dograh_auth_user", "not json")]
      "not json" (by rfl) (by decide) (by rfl)).2 (by rfl)⟩

/-- Counterexample to claim C6 as stated: the backend register call succeeds
(yielding an access token) but the follow-up profile fetch returns a
non-success status; the handler persists **no** cookies (neither the token
nor any degraded profile) and answers 500 — the error path even re-reads the
already-consumed register response body, which throws and lands in the
`catch`. The claim says a degraded profile and the token are still
persisted. -/
theorem register_profile_failure_persists_nothing :
    RegisterRoute.registerPOST
        ⟨RegisterRoute.FetchResult.resp true 200
            (Except.ok (Json.obj [("access_token", Json.str "tok1")])),
          RegisterRoute.FetchResult.resp false 500 (Except.ok (Json.obj []))⟩ =
      ⟨500, Json.obj [("error", Json.str "Internal server error")], []⟩ := by
  rfl

/-- Claim C6 as amended: whenever the backend register call succeeds but the
profile fetch fails (non-success status or network error), the register
handler writes no cookie at all and returns a 500 error response — no token
and no profile are persisted. -/
theorem register_profile_failure_no_cookies (env : RegisterRoute.RegisterEnv)
    (st : Nat) (b : Except Unit Json)
    (hreg : env.registerResp = RegisterRoute.FetchResult.resp true st b)
    (hprof : env.userConfigResp = RegisterRoute.FetchResult.netError ∨
      ∃ st2 b2, env.userConfigResp = RegisterRoute.FetchResult.resp false st2 b2) :
    RegisterRoute.registerPOST env =
      ⟨500, Json.obj [("error", Json.str "Internal server error")], []⟩ := by
  unfold RegisterRoute.registerPOST RegisterRoute.registerTry
  rw [hreg]
  rcases b with e | data
  · simp [Except.bind]
  · rcases hprof with h | ⟨st2, b2, h⟩ <;> rw [h] <;>
      rcases hacc : jsGet data "access_token" with e2 | tok <;>
      simp [Except.bind, hacc]

/-- Witness for the amended C6 at a concrete environment (register ok,
profile fetch 500). -/
theorem register_profile_failure_no_cookies_witness :
    RegisterRoute.registerPOST
        ⟨RegisterRoute.FetchResult.resp true 201
            (Except.ok (Json.obj [("access_token", Json.str "tok2")])),
          RegisterRoute.FetchResult.resp false 503 (Except.ok Json.null)⟩ =
      ⟨500, Json.obj [("error", Json.str "Internal server error")], []⟩ :=
  register_profile_failure_no_cookies
    ⟨RegisterRoute.FetchResult.resp true 201
        (Except.ok (Json.obj [("access_token", Json.str "tok2")])),
      RegisterRoute.FetchResult.resp false 503 (Except.ok Json.null)⟩
    201 (Except.ok (Json.obj [("access_token", Json.str "tok2")])) (by rfl)
    (Or.inr ⟨503, Except.ok Json.null, by rfl⟩)

/-- Claim C5: `getAccessToken` returns the fixed placeholder on the
server-rendering side without touching state or network; on the client it
awaits the in-flight hydration and, when that hydration populates a
(non-empty) token, returns it with no further fetch; when the token is still
empty after the awaited hydration, it performs exactly one re-hydration
fetch and then returns the freshly fetched token if populated and `""`
otherwise. The model is a total function, which is the no-throw guarantee. -/
theorem getAccessToken_spec (env : Nat → LocalAuthService.FetchOutcome)
    (s : LocalAuthService.SvcState) :
    (LocalAuthService.getAccessToken true env s = ("ssr-placeholder-token", 0, s)) ∧
    (∀ t u, s.authPromise =
        LocalAuthService.PromiseView.pending (LocalAuthService.FetchOutcome.success t u) →
      t ≠ "" →
      (LocalAuthService.getAccessToken false env s).fst = t ∧
      (LocalAuthService.getAccessToken false env s).snd.fst = 0) ∧
    (∀ o, s.authPromise = LocalAuthService.PromiseView.pending o →
      LocalAuthService.tokenTruthy (LocalAuthService.applyOutcome o s) = false →
      (LocalAuthService.getAccessToken false env s).snd.fst = 1 ∧
      (LocalAuthService.getAccessToken false env s).fst =
        (match env 0 with
         | LocalAuthService.FetchOutcome.success t2 _ => if t2 = "" then "" else t2
         | LocalAuthService.FetchOutcome.failure => "")) := by
  refine ⟨by simp [LocalAuthService.getAccessToken], ?_, ?_⟩
  · intro t u hpend ht
    have htb : (t != "") = true := by simpa using ht
    unfold LocalAuthService.getAccessToken LocalAuthService.ensureAuth
    rw [hpend]
    simp [LocalAuthService.applyOutcome, LocalAuthService.tokenTruthy, optTruthy, htb]
  · intro o hpend hfalsy
    unfold LocalAuthService.getAccessToken LocalAuthService.ensureAuth
    rw [hpend]
    rcases o with ⟨t1, u1⟩ | _
    · have ht1 : t1 = "" := by
        by_contra h
        simp [LocalAuthService.tokenTruthy, LocalAuthService.applyOutcome, optTruthy, h] at hfalsy
      subst ht1
      rcases henv : env 0 with ⟨t2, u2⟩ | _
      · by_cases ht2 : t2 = ""
        · subst ht2
          simp [henv, LocalAuthService.applyOutcome, LocalAuthService.tokenTruthy, optTruthy]
        · have ht2b : (t2 != "") = true := by simpa using ht2
          simp [henv, LocalAuthService.applyOutcome, LocalAuthService.tokenTruthy, optTruthy,
            ht2b, ht2]
      · simp [henv, LocalAuthService.applyOutcome, LocalAuthService.tokenTruthy, optTruthy]
    · have hsf : optTruthy s.currentToken = false := by
        simpa [LocalAuthService.tokenTruthy, LocalAuthService.applyOutcome] using hfalsy
      rcases hcur : s.currentToken with _ | tv
      · rcases henv : env 0 with ⟨t2, u2⟩ | _
        · by_cases ht2 : t2 = ""
          · subst ht2
            simp [henv, hcur, LocalAuthService.applyOutcome, LocalAuthService.tokenTruthy,
              optTruthy]
          · have ht2b : (t2 != "") = true := by simpa using ht2
            simp [henv, hcur, LocalAuthService.applyOutcome, LocalAuthService.tokenTruthy,
              optTruthy, ht2b, ht2]
        · simp [henv, hcur, LocalAuthService.applyOutcome, LocalAuthService.tokenTruthy, optTruthy]
      · rw [hcur] at hsf
        have htv : (tv != "") = false := by simpa [optTruthy] using hsf
        rcases henv : env 0 with ⟨t2, u2⟩ | _
        · by_cases ht2 : t2 = ""
          · subst ht2
            simp [henv, hcur, htv, LocalAuthService.applyOutcome, LocalAuthService.tokenTruthy,
              optTruthy]
          · have ht2b : (t2 != "") = true := by simpa using ht2
            simp [henv, hcur, htv, LocalAuthService.applyOutcome, LocalAuthService.tokenTruthy,
              optTruthy, ht2b, ht2]
        · simp [henv, hcur, htv, LocalAuthService.applyOutcome, LocalAuthService.tokenTruthy,
            optTruthy]

/-- Witness for C5: the SSR branch, a successful in-flight hydration, and a
failing hydration followed by one failing re-hydration, at concrete states. -/
theorem getAccessToken_spec_witness :
    (LocalAuthService.getAccessToken true (fun _ => LocalAuthService.FetchOutcome.failure)
        ⟨none, none, LocalAuthService.PromiseView.nullP⟩ =
      ("ssr-placeholder-token", 0, ⟨none, none, LocalAuthService.PromiseView.nullP⟩)) ∧
    ((LocalAuthService.getAccessToken false (fun _ => LocalAuthService.FetchOutcome.failure)
        ⟨none, none, LocalAuthService.PromiseView.pending
          (LocalAuthService.FetchOutcome.success "tk5" Json.null)⟩).fst = "tk5") ∧
    ((LocalAuthService.getAccessToken false (fun _ => LocalAuthService.FetchOutcome.failure)
        ⟨none, none, LocalAuthService.PromiseView.pending
          LocalAuthService.FetchOutcome.failure⟩).snd.fst = 1) := by
  refine ⟨(getAccessToken_spec (fun _ => LocalAuthService.FetchOutcome.failure)
      ⟨none, none, LocalAuthService.PromiseView.nullP⟩).1, ?_, ?_⟩
  · exact ((getAccessToken_spec (fun _ => LocalAuthService.FetchOutcome.failure)
      ⟨none, none, LocalAuthService.PromiseView.pending
        (LocalAuthService.FetchOutcome.success "tk5" Json.null)⟩).2.1 "tk5" Json.null
      (by rfl) (by decide)).1
  · exact ((getAccessToken_spec (fun _ => LocalAuthService.FetchOutcome.failure)
      ⟨none, none, LocalAuthService.PromiseView.pending
        LocalAuthService.FetchOutcome.failure⟩).2.2 LocalAuthService.FetchOutcome.failure
      (by rfl) (by rfl)).1

/-- Counterexample to claim C8 as stated: both callers step before the
initial hydration settles (the claim's scenario), but the hydration endpoint
answers 401 (`FetchOutcome.failure`); after the shared initial hydration
completes empty, each caller issues its own re-initialization fetch, so
**three** hydration fetches are issued in total, not exactly one, and both
callers return `""`. -/
theorem concurrent_getAccessToken_three_fetches :
    (LocalAuthService.run (fun _ => LocalAuthService.FetchOutcome.failure)
        [LocalAuthService.SchedAction.stepA, LocalAuthService.SchedAction.stepB,
          LocalAuthService.SchedAction.settleP 0, LocalAuthService.SchedAction.stepA,
          LocalAuthService.SchedAction.stepB, LocalAuthService.SchedAction.settleP 1,
          LocalAuthService.SchedAction.settleP 2, LocalAuthService.SchedAction.stepA,
          LocalAuthService.SchedAction.stepB]
        (LocalAuthService.initTwoCallers (fun _ => LocalAuthService.FetchOutcome.failure))).fetchCount
        = 3 ∧
    (LocalAuthService.run (fun _ => LocalAuthService.FetchOutcome.failure)
        [LocalAuthService.SchedAction.stepA, LocalAuthService.SchedAction.stepB,
          LocalAuthService.SchedAction.settleP 0, LocalAuthService.SchedAction.stepA,
          LocalAuthService.SchedAction.stepB, LocalAuthService.SchedAction.settleP 1,
          LocalAuthService.SchedAction.settleP 2, LocalAuthService.SchedAction.stepA,
          LocalAuthService.SchedAction.stepB]
        (LocalAuthService.initTwoCallers (fun _ => LocalAuthService.FetchOutcome.failure))).pcA
        = LocalAuthService.CallerPC.done "" ∧
    (LocalAuthService.run (fun _ => LocalAuthService.FetchOutcome.failure)
        [LocalAuthService.SchedAction.stepA, LocalAuthService.SchedAction.stepB,
          LocalAuthService.SchedAction.settleP 0, LocalAuthService.SchedAction.stepA,
          LocalAuthService.SchedAction.stepB, LocalAuthService.SchedAction.settleP 1,
          LocalAuthService.SchedAction.settleP 2, LocalAuthService.SchedAction.stepA,
          LocalAuthService.SchedAction.stepB]
        (LocalAuthService.initTwoCallers (fun _ => LocalAuthService.FetchOutcome.failure))).pcB
        = LocalAuthService.CallerPC.done "" := by
  exact ⟨rfl, rfl, rfl⟩

/-- While the initial hydration promise is pending, a caller step only moves
the caller onto that shared promise; it never issues a fetch or changes the
shared state. -/
theorem stepCaller_pending_phase (env : Nat → LocalAuthService.FetchOutcome)
    (c : LocalAuthService.MachineConfig) (pc : LocalAuthService.CallerPC)
    (o : LocalAuthService.FetchOutcome)
    (hap : c.authPromise = some 0)
    (hprom : c.promises = [LocalAuthService.PromEntry.pendingP o])
    (hpc : LocalAuthService.pcSharesInit pc) :
    LocalAuthService.stepCaller env c pc = (c, LocalAuthService.CallerPC.waitEnsure 0) := by
  rcases hpc with h | h <;> subst h <;>
    simp [LocalAuthService.stepCaller, hap, hprom]

/-- After the initial hydration settled with a non-empty token, a caller step
either moves onto the settled promise or completes with the hydrated token;
it never issues a fetch. -/
theorem stepCaller_settled_phase (env : Nat → LocalAuthService.FetchOutcome)
    (c : LocalAuthService.MachineConfig) (pc : LocalAuthService.CallerPC)
    (t : String) (ht : (t != "") = true)
    (hap : c.authPromise = some 0)
    (hprom : c.promises = [LocalAuthService.PromEntry.settledP])
    (htok : c.currentToken = some t)
    (hpc : LocalAuthService.pcAfterInit t pc) :
    LocalAuthService.stepCaller env c pc = (c, LocalAuthService.CallerPC.waitEnsure 0) ∨
    LocalAuthService.stepCaller env c pc = (c, LocalAuthService.CallerPC.done t) := by
  rcases hpc with h | h | h <;> subst h
  · left
    simp [LocalAuthService.stepCaller, hap]
  · right
    simp [LocalAuthService.stepCaller, hprom, LocalAuthService.resumeCheck, htok, optTruthy, ht]
  · right
    simp [LocalAuthService.stepCaller]

/-- The coalescing invariant is preserved by every scheduler action. -/
theorem coalesced_step (env : Nat → LocalAuthService.FetchOutcome) (t : String) (u : Json)
    (ht : t ≠ "") (a : LocalAuthService.SchedAction) (c : LocalAuthService.MachineConfig)
    (h : LocalAuthService.Coalesced t u c) :
    LocalAuthService.Coalesced t u (LocalAuthService.stepM env a c) := by
  obtain ⟨hfc, hap, hrest⟩ := h
  have htb : (t != "") = true := by simpa using ht
  rcases a with _ | _ | p
  · rcases hrest with ⟨hprom, htok, hA, hB⟩ | ⟨hprom, htok, hA, hB⟩
    · have hstep := stepCaller_pending_phase env c c.pcA _ hap hprom hA
      simp only [LocalAuthService.stepM, hstep]
      exact ⟨hfc, hap, Or.inl ⟨hprom, htok, Or.inr rfl, hB⟩⟩
    · rcases stepCaller_settled_phase env c c.pcA t htb hap hprom htok hA with hstep | hstep <;>
        simp only [LocalAuthService.stepM, hstep]
      · exact ⟨hfc, hap, Or.inr ⟨hprom, htok, Or.inr (Or.inl rfl), hB⟩⟩
      · exact ⟨hfc, hap, Or.inr ⟨hprom, htok, Or.inr (Or.inr rfl), hB⟩⟩
  · rcases hrest with ⟨hprom, htok, hA, hB⟩ | ⟨hprom, htok, hA, hB⟩
    · have hstep := stepCaller_pending_phase env c c.pcB _ hap hprom hB
      simp only [LocalAuthService.stepM, hstep]
      exact ⟨hfc, hap, Or.inl ⟨hprom, htok, hA, Or.inr rfl⟩⟩
    · rcases stepCaller_settled_phase env c c.pcB t htb hap hprom htok hB with hstep | hstep <;>
        simp only [LocalAuthService.stepM, hstep]
      · exact ⟨hfc, hap, Or.inr ⟨hprom, htok, hA, Or.inr (Or.inl rfl)⟩⟩
      · exact ⟨hfc, hap, Or.inr ⟨hprom, htok, hA, Or.inr (Or.inr rfl)⟩⟩
  · rcases hrest with ⟨hprom, htok, hA, hB⟩ | ⟨hprom, htok, hA, hB⟩
    · rcases p with _ | p
      · simp only [LocalAuthService.stepM, LocalAuthService.settle, hprom]
        exact ⟨hfc, hap, Or.inr ⟨by simp [hprom], rfl,
          hA.imp id Or.inl, hB.imp id Or.inl⟩⟩
      · simp only [LocalAuthService.stepM, LocalAuthService.settle, hprom]
        exact ⟨hfc, hap, Or.inl ⟨hprom, htok, hA, hB⟩⟩
    · rcases p with _ | p
      · simp only [LocalAuthService.stepM, LocalAuthService.settle, hprom]
        exact ⟨hfc, hap, Or.inr ⟨hprom, htok, hA, hB⟩⟩
      · simp only [LocalAuthService.stepM, LocalAuthService.settle, hprom]
        exact ⟨hfc, hap, Or.inr ⟨hprom, htok, hA, hB⟩⟩

/-- The coalescing invariant holds along any schedule. -/
theorem coalesced_run (env : Nat → LocalAuthService.FetchOutcome) (t : String) (u : Json)
    (ht : t ≠ "") (sched : List LocalAuthService.SchedAction)
    (c : LocalAuthService.MachineConfig) (h : LocalAuthService.Coalesced t u c) :
    LocalAuthService.Coalesced t u (LocalAuthService.run env sched c) := by
  induction sched generalizing c with
  | nil => exact h
  | cons a rest ih => exact ih _ (coalesced_step env t u ht a c h)

/-- Claim C8 as amended: both concurrent callers share the single in-flight
hydration. When the initial hydration succeeds with a non-empty token,
exactly one hydration fetch — the shared in-flight one issued by the
constructor — is ever issued, under **every** interleaving of the two callers
and the promise completions, and every caller that completes returns that
token. (When the hydration completes without a token, each caller lazily
issues its one re-hydration, as the counterexample shows.) -/
theorem hydration_coalescing (env : Nat → LocalAuthService.FetchOutcome) (t : String) (u : Json)
    (ht : t ≠ "") (henv : env 0 = LocalAuthService.FetchOutcome.success t u)
    (sched : List LocalAuthService.SchedAction) :
    (LocalAuthService.run env sched (LocalAuthService.initTwoCallers env)).fetchCount = 1 ∧
    (∀ r, (LocalAuthService.run env sched (LocalAuthService.initTwoCallers env)).pcA =
      LocalAuthService.CallerPC.done r → r = t) ∧
    (∀ r, (LocalAuthService.run env sched (LocalAuthService.initTwoCallers env)).pcB =
      LocalAuthService.CallerPC.done r → r = t) := by
  have hinit : LocalAuthService.Coalesced t u (LocalAuthService.initTwoCallers env) := by
    refine ⟨rfl, rfl, Or.inl ⟨?_, rfl, Or.inl rfl, Or.inl rfl⟩⟩
    simp [LocalAuthService.initTwoCallers, henv]
  obtain ⟨hfc, hap, hrest⟩ := coalesced_run env t u ht sched _ hinit
  refine ⟨hfc, ?_, ?_⟩
  · intro r hr
    rcases hrest with ⟨_, _, hA, _⟩ | ⟨_, _, hA, _⟩
    · rcases hA with h | h <;> rw [hr] at h <;> simp at h
    · rcases hA with h | h | h
      · rw [hr] at h
        simp at h
      · rw [hr] at h
        simp at h
      · rw [hr] at h
        exact LocalAuthService.CallerPC.done.inj h
  · intro r hr
    rcases hrest with ⟨_, _, _, hB⟩ | ⟨_, _, _, hB⟩
    · rcases hB with h | h <;> rw [hr] at h <;> simp at h
    · rcases hB with h | h | h
      · rw [hr] at h
        simp at h
      · rw [hr] at h
        simp at h
      · rw [hr] at h
        exact LocalAuthService.CallerPC.done.inj h

/-- Witness for the amended C8 at a successful hydration and a concrete
interleaving in which both callers start before the hydration settles. -/
theorem hydration_coalescing_witness :
    (LocalAuthService.run (fun _ => LocalAuthService.FetchOutcome.success "tk" Json.null)
        [LocalAuthService.SchedAction.stepA, LocalAuthService.SchedAction.stepB,
          LocalAuthService.SchedAction.settleP 0, LocalAuthService.SchedAction.stepA,
          LocalAuthService.SchedAction.stepB]
        (LocalAuthService.initTwoCallers
          (fun _ => LocalAuthService.FetchOutcome.success "tk" Json.null))).fetchCount = 1 :=
  (hydration_coalescing (fun _ => LocalAuthService.FetchOutcome.success "tk" Json.null)
    "tk" Json.null (by decide) rfl
    [LocalAuthService.SchedAction.stepA, LocalAuthService.SchedAction.stepB,
      LocalAuthService.SchedAction.settleP 0, LocalAuthService.SchedAction.stepA,
      LocalAuthService.SchedAction.stepB]).1
